import Mathlib

/-!
Verification of the document-upload service (`server/main.py`).

The server is a FastAPI application persisting uploaded PDF blobs in a
filesystem directory (`server/uploads`) and their metadata in an SQLite
table `documents`.  This development shallowly embeds the handlers:

* `validate_pdf_file` — extension and `%PDF` magic-number validation,
* `generate_unique_filename` — timestamp/random storage-key generation
  (including the semantics of Python's `os.path.splitext`),
* `upload_document` — validation, size gate, blob write, index insert,
  re-read, and the `except`-handler compensation path,
* `get_documents`, `download_document`, `delete_document`.

Byte strings are `List Nat`; the SQLite table is a `List DocRow`; the
upload directory is an association list from filepath to content.
Fallible I/O steps (blob write, index insert, index delete) take a
Boolean fault flag so that the `except Exception` branches of the
handlers are part of the model.  File streams carry an explicit read
position so the validator's seek discipline is visible.
-/

/-- Bytes of the PDF signature checked by `header.startswith(b'%PDF')`. -/
def pdfMagic : List Nat := [37, 80, 68, 70]

/-- `MAX_FILE_SIZE = 10 * 1024 * 1024`  (10 MiB). -/
def MAX_FILE_SIZE : Nat := 10 * 1024 * 1024

/-- `UPLOAD_DIR = Path("server/uploads")`; joining with the generated name. -/
def uploadsDir : String := "server/uploads/"

/-- The state of an `UploadFile`: declared filename, full byte content,
and the current read position of the underlying stream. -/
structure FileState where
  name : String
  data : List Nat
  pos : Nat
deriving DecidableEq

/-- The characters of the extension `.pdf`. -/
def pdfExt : List Char := ['.', 'p', 'd', 'f']

/-- `filename.lower().endswith('.pdf')`, computed on the character list. -/
def lowerEndsWithPdf (name : String) : Bool :=
  pdfExt.isSuffixOf (name.toList.map Char.toLower)

/-- `validate_pdf_file`: the filename must end in `.pdf` case-insensitively;
then the stream is rewound, the first 1024 bytes are read, and the stream
is rewound again before checking for the `%PDF` signature. -/
def validate_pdf_file (file : FileState) : Bool × FileState :=
  if lowerEndsWithPdf file.name = false then
    (false, file)
  else
    let header := file.data.take 1024
    (pdfMagic.isPrefixOf header, { file with pos := 0 })

/-- Index of the last occurrence of `c` in `cs`, or `-1` (Python `rfind`). -/
def rfindChar (cs : List Char) (c : Char) : Int :=
  match cs with
  | [] => -1
  | x :: xs =>
    let r := rfindChar xs c
    if 0 ≤ r then r + 1 else if x = c then 0 else -1

/-- `os.path.splitext` for POSIX paths: split at the last dot, provided it
lies after the last `/` and at least one non-dot character of the basename
precedes it (so leading dots of a basename never start an extension). -/
def splitext (p : String) : String × String :=
  let cs := p.toList
  let sepIndex := rfindChar cs '/'
  let dotIndex := rfindChar cs '.'
  let hasStem := (List.range cs.length).any fun i =>
    decide (sepIndex < (i : Int)) && decide ((i : Int) < dotIndex) &&
      decide (cs.getD i '.' ≠ '.')
  if decide (sepIndex < dotIndex) && hasStem then
    (String.mk (cs.take dotIndex.toNat), String.mk (cs.drop dotIndex.toNat))
  else
    (p, "")

/-- `generate_unique_filename`: `f"{timestamp}-{random_suffix}-{name}{ext}"`
where `(name, ext) = os.path.splitext(original_filename)`.  The timestamp
and the random suffix drawn from `randint(1000, 9999)` are parameters. -/
def generate_unique_filename (ts rand : Nat) (original_filename : String) : String :=
  let pair := splitext original_filename
  toString ts ++ "-" ++ toString rand ++ "-" ++ pair.1 ++ pair.2

/-- The filepath an upload of `file` will use given timestamp `ts` and
random suffix `rand`: `UPLOAD_DIR / generate_unique_filename(...)`. -/
def fpOf (file : FileState) (ts rand : Nat) : String :=
  uploadsDir ++ generate_unique_filename ts rand file.name

/-- One row of the `documents` table. -/
structure DocRow where
  id : Nat
  filename : String
  original_name : String
  filepath : String
  filesize : Nat
  created_at : Nat
deriving DecidableEq

/-- Whole-server state: the upload directory (filepath to byte content),
the `documents` table, and the next `AUTOINCREMENT` row id. -/
structure ServerState where
  disk : List (String × List Nat)
  table : List DocRow
  nextId : Nat
deriving DecidableEq

/-- Fresh server state: empty directory, empty table, ids start at 1. -/
def initialState : ServerState := ⟨[], [], 1⟩

/-- Content stored at path `k`, if the file exists. -/
def diskLookup (d : List (String × List Nat)) (k : String) : Option (List Nat) :=
  match d with
  | [] => none
  | kv :: rest => if kv.1 = k then some kv.2 else diskLookup rest k

/-- `open(k, 'wb')` followed by a full write: creates the file, or
truncates and replaces the content if `k` already exists. -/
def diskInsert (d : List (String × List Nat)) (k : String) (v : List Nat) :
    List (String × List Nat) :=
  match d with
  | [] => [(k, v)]
  | kv :: rest => if kv.1 = k then (k, v) :: rest else kv :: diskInsert rest k v

/-- `Path(k).unlink()`: remove the file at `k` (no-op when absent). -/
def diskErase (d : List (String × List Nat)) (k : String) : List (String × List Nat) :=
  d.filter fun kv => decide (kv.1 ≠ k)

/-- `SELECT * FROM documents WHERE id = ?` followed by `fetchone()`. -/
def tableLookup (t : List DocRow) (i : Nat) : Option DocRow :=
  t.find? fun r => r.id == i

/-- `DELETE FROM documents WHERE id = ?`: the surviving rows. -/
def tableDelete (t : List DocRow) (i : Nat) : List DocRow :=
  t.filter fun r => !(r.id == i)

/-- `cursor.rowcount` of that `DELETE`: how many rows matched. -/
def tableCount (t : List DocRow) (i : Nat) : Nat :=
  (t.filter fun r => r.id == i).length

/-- Outcome of `POST /api/documents/upload`: HTTP 400 with a detail
string, HTTP 500 with a detail string, or the success payload
`{id, filename, filesize, created_at}`. -/
inductive UploadResult where
  | clientError (detail : String)
  | serverFault (detail : String)
  | success (id : Nat) (filename : String) (filesize : Nat) (created_at : Nat)
deriving DecidableEq

/-- Whether an upload outcome is an HTTP 400 client error. -/
def UploadResult.isClientError : UploadResult → Bool
  | .clientError _ => true
  | _ => false

/-- Whether an upload outcome is the HTTP 200 success payload. -/
def UploadResult.isSuccess : UploadResult → Bool
  | .success _ _ _ _ => true
  | _ => false

/-- Outcome of `GET /api/documents/{id}`: HTTP 404, HTTP 500, or a
`FileResponse` carrying content, media type and suggested filename. -/
inductive DownloadResult where
  | notFound (detail : String)
  | serverFault (detail : String)
  | ok (content : List Nat) (media_type : String) (filename : String)
deriving DecidableEq

/-- HTTP status code of a download outcome. -/
def DownloadResult.statusCode : DownloadResult → Nat
  | .notFound _ => 404
  | .serverFault _ => 500
  | .ok _ _ _ => 200

/-- Outcome of `DELETE /api/documents/{id}`. -/
inductive DeleteResult where
  | notFound (detail : String)
  | serverFault (detail : String)
  | ok (message : String)
deriving DecidableEq

/-- `upload_document`, with two fault flags for the fallible steps:
`writeFails` makes the `aiofiles` blob write raise after the file has
been created (the `except Exception` handler then unlinks the partial
file); `insertFails` makes the SQL `INSERT`/`commit` raise (the handler
then unlinks the fully written blob).  The handler's cleanup is
`if file_path.exists(): file_path.unlink()`. -/
def upload_document (s : ServerState) (file : FileState) (ts rand now : Nat)
    (writeFails insertFails : Bool) : UploadResult × ServerState :=
  let v := validate_pdf_file file
  if v.1 = false then
    (.clientError "Only PDF files are allowed", s)
  else
    let file1 := v.2
    let file_size := file1.data.length
    let file2 : FileState := { file1 with pos := 0 }
    if MAX_FILE_SIZE < file_size then
      (.clientError "File size exceeds 10MB limit", s)
    else if file_size = 0 then
      (.clientError "Empty file not allowed", s)
    else
      let unique_filename := generate_unique_filename ts rand file2.name
      let file_path := uploadsDir ++ unique_filename
      if writeFails then
        (.serverFault "Internal server error during upload",
         { s with disk := diskErase s.disk file_path })
      else
        let content := file2.data.drop file2.pos
        let disk1 := diskInsert s.disk file_path content
        if insertFails then
          (.serverFault "Internal server error during upload",
           { s with disk := diskErase disk1 file_path })
        else
          let row : DocRow :=
            ⟨s.nextId, unique_filename, file2.name, file_path, file_size, now⟩
          let table1 := s.table ++ [row]
          let s1 : ServerState := ⟨disk1, table1, s.nextId + 1⟩
          match tableLookup table1 s.nextId with
          | none => (.serverFault "Failed to retrieve uploaded document", s1)
          | some r => (.success r.id r.original_name r.filesize r.created_at, s1)

/-- `GET /api/documents`: every row projected to
`(id, original_name as filename, filesize, created_at)`, ordered by
`created_at DESC`. -/
def get_documents (s : ServerState) : List (Nat × String × Nat × Nat) :=
  ((s.table.mergeSort fun a b => b.created_at ≤ a.created_at).map
    fun r => (r.id, r.original_name, r.filesize, r.created_at))

/-- `download_document`: row lookup, then an existence check of the file
at the stored filepath, then the `FileResponse` with media type
`application/pdf` and the stored `original_name` as filename. -/
def download_document (s : ServerState) (document_id : Nat) : DownloadResult :=
  match tableLookup s.table document_id with
  | none => .notFound "Document not found"
  | some row =>
    match diskLookup s.disk row.filepath with
    | none => .notFound "File not found on disk"
    | some content => .ok content "application/pdf" row.original_name

/-- `delete_document`: row lookup (404 when absent); unlink the blob if
present; `DELETE` the row and commit; 404 when `rowcount == 0`.
`raceRemoves` models a concurrent request deleting the same row between
this handler's lookup and its `DELETE` (the benign race the rowcount
check is for); `dbDeleteFails` makes the SQL `DELETE` raise, landing in
the `except Exception` handler (HTTP 500) after the blob is already
gone. -/
def delete_document (s : ServerState) (document_id : Nat)
    (raceRemoves dbDeleteFails : Bool) : DeleteResult × ServerState :=
  match tableLookup s.table document_id with
  | none => (.notFound "Document not found", s)
  | some row =>
    let disk1 :=
      if (diskLookup s.disk row.filepath).isSome then diskErase s.disk row.filepath
      else s.disk
    let table1 := if raceRemoves then tableDelete s.table document_id else s.table
    if dbDeleteFails then
      (.serverFault "Internal server error during deletion", ⟨disk1, table1, s.nextId⟩)
    else
      let rowcount := tableCount table1 document_id
      let table2 := tableDelete table1 document_id
      if rowcount = 0 then
        (.notFound "Document not found", ⟨disk1, table2, s.nextId⟩)
      else
        (.ok "Document deleted successfully", ⟨disk1, table2, s.nextId⟩)

/-- One client-visible operation against the server, faults included. -/
inductive Step : ServerState → ServerState → Prop where
  | upload (s : ServerState) (file : FileState) (ts rand now : Nat)
      (writeFails insertFails : Bool) :
      Step s (upload_document s file ts rand now writeFails insertFails).2
  | delete (s : ServerState) (id : Nat) (raceRemoves dbDeleteFails : Bool) :
      Step s (delete_document s id raceRemoves dbDeleteFails).2

/-- States reachable from the fresh server by completed operations. -/
inductive Reachable : ServerState → Prop where
  | init : Reachable initialState
  | step {s s' : ServerState} : Reachable s → Step s s' → Reachable s'

/-- The §3 invariant: every index row has blob content on disk at its
stored filepath. -/
def indexBacked (s : ServerState) : Prop :=
  ∀ row ∈ s.table, (diskLookup s.disk row.filepath).isSome = true

/-- Operations restricted as the amended claim C1 requires: generated
storage keys are fresh (no collision with a file already on disk) and
the SQL `DELETE` of the deletion handler does not fail. -/
inductive StepNF : ServerState → ServerState → Prop where
  | upload (s : ServerState) (file : FileState) (ts rand now : Nat)
      (writeFails insertFails : Bool)
      (hfresh : diskLookup s.disk (fpOf file ts rand) = none) :
      StepNF s (upload_document s file ts rand now writeFails insertFails).2
  | delete (s : ServerState) (id : Nat) (raceRemoves : Bool) :
      StepNF s (delete_document s id raceRemoves false).2

/-- Reachability under `StepNF`. -/
inductive ReachableNF : ServerState → Prop where
  | init : ReachableNF initialState
  | step {s s' : ServerState} : ReachableNF s → StepNF s s' → ReachableNF s'

/-- Inductive strengthening of `indexBacked`: additionally, the rows'
filepaths are pairwise distinct. -/
def goodState (s : ServerState) : Prop :=
  indexBacked s ∧ s.table.Pairwise fun a b => a.filepath ≠ b.filepath

/-- A concrete valid upload: a 4-byte PDF named `a.pdf`. -/
def file0 : FileState := ⟨"a.pdf", [37, 80, 68, 70], 0⟩

/-! ### Helper lemmas about lists, the disk map and the table -/

theorem tableCount_delete_self (t : List DocRow) (i : Nat) :
    tableCount (tableDelete t i) i = 0 := by
  rw [tableCount, List.length_eq_zero, List.filter_eq_nil_iff]
  intro a ha
  rw [tableDelete] at ha
  have h2 := (List.mem_filter.mp ha).2
  simpa using h2

theorem tableDelete_idem (t : List DocRow) (i : Nat) :
    tableDelete (tableDelete t i) i = tableDelete t i := by
  conv_lhs => rw [tableDelete]
  refine List.filter_eq_self.mpr fun a ha => ?_
  rw [tableDelete] at ha
  exact (List.mem_filter.mp ha).2

theorem isPrefixOf_length_le (pat : List Nat) :
    ∀ l : List Nat, pat.isPrefixOf l = true → pat.length ≤ l.length := by
  induction pat with
  | nil => intro l _; simp
  | cons a as ih =>
    intro l h
    cases l with
    | nil => simp [List.isPrefixOf] at h
    | cons b bs =>
      simp only [List.isPrefixOf, Bool.and_eq_true, beq_iff_eq] at h
      have := ih bs h.2
      simp only [List.length_cons]
      omega

theorem isPrefixOf_append_self (pat rest : List Nat) :
    pat.isPrefixOf (pat ++ rest) = true := by
  induction pat with
  | nil => simp [List.isPrefixOf]
  | cons a as ih => simp [List.isPrefixOf, ih]

theorem isPrefixOf_take (pat : List Nat) :
    ∀ (l : List Nat) (n : Nat), pat.length ≤ n →
      pat.isPrefixOf (l.take n) = pat.isPrefixOf l := by
  induction pat with
  | nil => intro l n _; cases l <;> cases n <;> simp [List.isPrefixOf]
  | cons a as ih =>
    intro l n h
    cases n with
    | zero => simp at h
    | succ m =>
      cases l with
      | nil => simp
      | cons b bs =>
        simp only [List.take_succ_cons, List.isPrefixOf]
        rw [ih bs m (by simpa using h)]

theorem diskLookup_insert (d : List (String × List Nat)) (k : String)
    (v : List Nat) (q : String) :
    diskLookup (diskInsert d k v) q = if q = k then some v else diskLookup d q := by
  induction d with
  | nil =>
    simp only [diskInsert, diskLookup]
    by_cases h : q = k
    · subst h; simp
    · rw [if_neg h, if_neg (fun hh : k = q => h hh.symm)]
  | cons kv rest ih =>
    simp only [diskInsert]
    by_cases hk : kv.1 = k
    · rw [if_pos hk]
      simp only [diskLookup]
      by_cases hq : q = k
      · subst hq; simp
      · rw [if_neg hq, if_neg (fun hh : k = q => hq hh.symm)]
        rw [if_neg (by rw [hk]; exact fun hh : k = q => hq hh.symm)]
    · rw [if_neg hk]
      simp only [diskLookup, ih]
      by_cases hq : kv.1 = q
      · rw [if_pos hq, if_pos hq, if_neg (fun hqk => hk (hq.trans hqk))]
      · rw [if_neg hq, if_neg hq]

theorem diskLookup_erase (d : List (String × List Nat)) (k q : String) :
    diskLookup (diskErase d k) q = if q = k then none else diskLookup d q := by
  induction d with
  | nil =>
    simp only [diskErase, List.filter_nil, diskLookup]
    by_cases h : q = k <;> simp [h]
  | cons kv rest ih =>
    simp only [diskErase, List.filter_cons] at ih ⊢
    by_cases hk : kv.1 = k
    · rw [if_neg (by simp [hk])]
      rw [ih]
      by_cases hq : q = k
      · simp [hq]
      · rw [if_neg hq, if_neg hq]
        simp only [diskLookup]
        rw [if_neg (by rw [hk]; exact fun hh : k = q => hq hh.symm)]
    · rw [if_pos (by simp [hk])]
      simp only [diskLookup, ih]
      by_cases hq : kv.1 = q
      · rw [if_pos hq, if_neg (by rw [← hq]; exact fun hh => hk hh), if_pos hq]
      · rw [if_neg hq]
        by_cases hqk : q = k
        · simp [hqk]
        · rw [if_neg hqk, if_neg hqk, if_neg hq]

theorem tableLookup_mem {t : List DocRow} {i : Nat} {row : DocRow}
    (h : tableLookup t i = some row) : row ∈ t :=
  List.mem_of_find?_eq_some h

theorem tableLookup_id {t : List DocRow} {i : Nat} {row : DocRow}
    (h : tableLookup t i = some row) : row.id = i := by
  have := List.find?_some h
  simpa using this

theorem tableLookup_eq_none {t : List DocRow} {i : Nat}
    (h : ∀ row ∈ t, row.id ≠ i) : tableLookup t i = none := by
  rw [tableLookup, List.find?_eq_none]
  intro r hr
  simpa using h r hr

theorem tableLookup_delete_self (t : List DocRow) (i : Nat) :
    tableLookup (tableDelete t i) i = none := by
  rw [tableLookup, List.find?_eq_none]
  intro r hr
  have := List.of_mem_filter hr
  simpa using this

theorem mem_tableDelete {t : List DocRow} {i : Nat} {row : DocRow}
    (h : row ∈ tableDelete t i) : row ∈ t ∧ row.id ≠ i := by
  refine ⟨List.mem_of_mem_filter h, ?_⟩
  have := List.of_mem_filter h
  simpa using this

theorem tableCount_pos {t : List DocRow} {i : Nat} {row : DocRow}
    (hmem : row ∈ t) (hid : row.id = i) : tableCount t i ≠ 0 := by
  rw [tableCount]
  have : row ∈ t.filter fun r => r.id == i :=
    List.mem_filter.2 ⟨hmem, by simp [hid]⟩
  intro hlen
  rw [List.length_eq_zero] at hlen
  rw [hlen] at this
  exact (List.not_mem_nil row) this

/-! ### Facts about the validator -/

theorem validate_data_eq (file : FileState) :
    (validate_pdf_file file).2.data = file.data := by
  rw [validate_pdf_file]
  by_cases h : lowerEndsWithPdf file.name = false <;> simp [h]

theorem validate_name_eq (file : FileState) :
    (validate_pdf_file file).2.name = file.name := by
  rw [validate_pdf_file]
  by_cases h : lowerEndsWithPdf file.name = false <;> simp [h]

theorem validate_true_iff (file : FileState) :
    (validate_pdf_file file).1 = true ↔
      lowerEndsWithPdf file.name = true ∧ pdfMagic.isPrefixOf file.data = true := by
  rw [validate_pdf_file]
  by_cases h : lowerEndsWithPdf file.name = false
  · simp [h]
  · rw [if_neg h]
    rw [Bool.not_eq_false] at h
    simp only [h, true_and]
    rw [isPrefixOf_take pdfMagic file.data 1024 (by decide)]

theorem validate_true_length {file : FileState}
    (h : (validate_pdf_file file).1 = true) : 4 ≤ file.data.length := by
  have hp := ((validate_true_iff file).1 h).2
  have := isPrefixOf_length_le pdfMagic file.data hp
  simpa using this

theorem validate_of_append (name : String) (rest : List Nat) (pos : Nat)
    (hname : lowerEndsWithPdf name = true) :
    (validate_pdf_file ⟨name, pdfMagic ++ rest, pos⟩).1 = true := by
  rw [validate_true_iff]
  exact ⟨hname, isPrefixOf_append_self pdfMagic rest⟩

/-! ### Branch characterizations of the upload handler -/

/-- The row the upload handler inserts into `documents`. -/
def uploadRow (s : ServerState) (file : FileState) (ts rand now : Nat) : DocRow :=
  ⟨s.nextId, generate_unique_filename ts rand file.name, file.name,
   fpOf file ts rand, file.data.length, now⟩

theorem matchOption_snd (o : Option DocRow) (a : UploadResult)
    (b : DocRow → UploadResult) (s1 : ServerState) :
    (match o with
     | none => (a, s1)
     | some r => (b r, s1)).2 = s1 := by
  cases o <;> rfl

theorem upload_invalid (s : ServerState) (file : FileState) (ts rand now : Nat)
    (wf inf : Bool) (hv : (validate_pdf_file file).1 = false) :
    upload_document s file ts rand now wf inf =
      (.clientError "Only PDF files are allowed", s) := by
  rw [upload_document]
  simp [hv]

theorem upload_oversize (s : ServerState) (file : FileState) (ts rand now : Nat)
    (wf inf : Bool) (hv : (validate_pdf_file file).1 = true)
    (hsz : MAX_FILE_SIZE < file.data.length) :
    upload_document s file ts rand now wf inf =
      (.clientError "File size exceeds 10MB limit", s) := by
  rw [upload_document]
  simp only [hv, Bool.true_eq_false, if_false, validate_data_eq]
  rw [if_pos hsz]

theorem upload_writeFail (s : ServerState) (file : FileState) (ts rand now : Nat)
    (inf : Bool) (hv : (validate_pdf_file file).1 = true)
    (hsz : file.data.length ≤ MAX_FILE_SIZE) (hnz : file.data.length ≠ 0) :
    upload_document s file ts rand now true inf =
      (.serverFault "Internal server error during upload",
       ⟨diskErase s.disk (fpOf file ts rand), s.table, s.nextId⟩) := by
  rw [upload_document]
  simp only [hv, Bool.true_eq_false, if_false, validate_data_eq, validate_name_eq]
  rw [if_neg (Nat.not_lt.2 hsz), if_neg hnz]
  simp [fpOf]

theorem upload_insertFail (s : ServerState) (file : FileState) (ts rand now : Nat)
    (hv : (validate_pdf_file file).1 = true)
    (hsz : file.data.length ≤ MAX_FILE_SIZE) (hnz : file.data.length ≠ 0) :
    upload_document s file ts rand now false true =
      (.serverFault "Internal server error during upload",
       ⟨diskErase (diskInsert s.disk (fpOf file ts rand) file.data) (fpOf file ts rand),
        s.table, s.nextId⟩) := by
  rw [upload_document]
  simp only [hv, Bool.true_eq_false, if_false, validate_data_eq, validate_name_eq]
  rw [if_neg (Nat.not_lt.2 hsz), if_neg hnz]
  simp [fpOf, validate_data_eq]

theorem upload_success_state (s : ServerState) (file : FileState) (ts rand now : Nat)
    (hv : (validate_pdf_file file).1 = true)
    (hsz : file.data.length ≤ MAX_FILE_SIZE) (hnz : file.data.length ≠ 0) :
    (upload_document s file ts rand now false false).2 =
      ⟨diskInsert s.disk (fpOf file ts rand) file.data,
       s.table ++ [uploadRow s file ts rand now], s.nextId + 1⟩ := by
  rw [upload_document]
  simp only [hv, Bool.true_eq_false, if_false, validate_data_eq, validate_name_eq]
  rw [if_neg (Nat.not_lt.2 hsz), if_neg hnz]
  simp only [Bool.false_eq_true, if_false, validate_data_eq, validate_name_eq]
  exact matchOption_snd _ _ _ _

theorem upload_success_result (s : ServerState) (file : FileState) (ts rand now : Nat)
    (hv : (validate_pdf_file file).1 = true)
    (hsz : file.data.length ≤ MAX_FILE_SIZE) (hnz : file.data.length ≠ 0)
    (hid : ∀ row ∈ s.table, row.id ≠ s.nextId) :
    (upload_document s file ts rand now false false).1 =
      .success s.nextId file.name file.data.length now := by
  rw [upload_document]
  simp only [hv, Bool.true_eq_false, if_false, validate_data_eq, validate_name_eq]
  rw [if_neg (Nat.not_lt.2 hsz), if_neg hnz]
  simp only [Bool.false_eq_true, if_false, validate_data_eq, validate_name_eq]
  have htl : tableLookup (s.table ++ [uploadRow s file ts rand now]) s.nextId =
      some (uploadRow s file ts rand now) := by
    rw [tableLookup, List.find?_append]
    have hnone := tableLookup_eq_none hid
    rw [tableLookup] at hnone
    rw [hnone, Option.none_or]
    simp [List.find?, uploadRow]
  simp only [uploadRow, fpOf] at htl
  rw [htl]

/-! ### Branch characterizations of the delete handler -/

theorem delete_notFound (s : ServerState) (id : Nat) (race dbf : Bool)
    (h : tableLookup s.table id = none) :
    delete_document s id race dbf = (.notFound "Document not found", s) := by
  rw [delete_document, h]

theorem delete_found (s : ServerState) (id : Nat) (row : DocRow)
    (h : tableLookup s.table id = some row) :
    delete_document s id false false =
      (.ok "Document deleted successfully",
       ⟨if (diskLookup s.disk row.filepath).isSome then diskErase s.disk row.filepath
         else s.disk,
        tableDelete s.table id, s.nextId⟩) := by
  rw [delete_document, h]
  simp only [Bool.false_eq_true, if_false]
  rw [if_neg (tableCount_pos (tableLookup_mem h) (tableLookup_id h))]

theorem delete_race (s : ServerState) (id : Nat) (row : DocRow)
    (h : tableLookup s.table id = some row) :
    delete_document s id true false =
      (.notFound "Document not found",
       ⟨if (diskLookup s.disk row.filepath).isSome then diskErase s.disk row.filepath
         else s.disk,
        tableDelete s.table id, s.nextId⟩) := by
  rw [delete_document, h]
  simp only [if_true, Bool.false_eq_true, if_false]
  rw [if_pos (tableCount_delete_self s.table id), tableDelete_idem]

theorem delete_dbFail (s : ServerState) (id : Nat) (row : DocRow) (race : Bool)
    (h : tableLookup s.table id = some row) :
    delete_document s id race true =
      (.serverFault "Internal server error during deletion",
       ⟨if (diskLookup s.disk row.filepath).isSome then diskErase s.disk row.filepath
         else s.disk,
        if race then tableDelete s.table id else s.table, s.nextId⟩) := by
  rw [delete_document, h]
  rfl

/-! ### Branch characterizations of the download handler -/

theorem download_missing_row (s : ServerState) (id : Nat)
    (h : tableLookup s.table id = none) :
    download_document s id = .notFound "Document not found" := by
  rw [download_document, h]

theorem download_missing_blob (s : ServerState) (id : Nat) (row : DocRow)
    (h : tableLookup s.table id = some row)
    (hmiss : diskLookup s.disk row.filepath = none) :
    download_document s id = .notFound "File not found on disk" := by
  rw [download_document]
  simp only [h]
  rw [hmiss]

theorem download_ok (s : ServerState) (id : Nat) (row : DocRow) (content : List Nat)
    (h : tableLookup s.table id = some row)
    (hc : diskLookup s.disk row.filepath = some content) :
    download_document s id = .ok content "application/pdf" row.original_name := by
  rw [download_document]
  simp only [h]
  rw [hc]

/-! ### Claims -/

/-- C2: if the metadata-index insert fails for any reason after the blob
has been written, `upload_document` deletes the just-written blob before
reporting a server fault, and a subsequent `list()` does not contain the
failed upload (the table, hence the listing, is unchanged). -/
theorem C2_insert_failure_compensated (s : ServerState) (file : FileState)
    (ts rand now : Nat)
    (hv : (validate_pdf_file file).1 = true)
    (hsz : file.data.length ≤ MAX_FILE_SIZE) :
    (upload_document s file ts rand now false true).1
      = .serverFault "Internal server error during upload"
    ∧ diskLookup (upload_document s file ts rand now false true).2.disk
        (fpOf file ts rand) = none
    ∧ (upload_document s file ts rand now false true).2.table = s.table
    ∧ get_documents (upload_document s file ts rand now false true).2
        = get_documents s := by
  have hnz : file.data.length ≠ 0 := by
    have := validate_true_length hv
    omega
  rw [upload_insertFail s file ts rand now hv hsz hnz]
  refine ⟨rfl, ?_, rfl, rfl⟩
  rw [diskLookup_erase]
  simp

/-- Witness for C2 at a concrete upload. -/
theorem C2_witness :
    (upload_document initialState file0 1 1000 0 false true).1
      = .serverFault "Internal server error during upload"
    ∧ diskLookup (upload_document initialState file0 1 1000 0 false true).2.disk
        (fpOf file0 1 1000) = none
    ∧ (upload_document initialState file0 1 1000 0 false true).2.table
        = initialState.table
    ∧ get_documents (upload_document initialState file0 1 1000 0 false true).2
        = get_documents initialState :=
  C2_insert_failure_compensated initialState file0 1 1000 0 (by decide) (by decide)

/-- C3: if the blob-store write fails during an upload, `upload_document`
reports a server fault, and no index row is created for that upload (the
table, hence the listing, is unchanged). -/
theorem C3_write_failure_no_row (s : ServerState) (file : FileState)
    (ts rand now : Nat) (inf : Bool)
    (hv : (validate_pdf_file file).1 = true)
    (hsz : file.data.length ≤ MAX_FILE_SIZE) :
    (upload_document s file ts rand now true inf).1
      = .serverFault "Internal server error during upload"
    ∧ (upload_document s file ts rand now true inf).2.table = s.table
    ∧ get_documents (upload_document s file ts rand now true inf).2
        = get_documents s := by
  have hnz : file.data.length ≠ 0 := by
    have := validate_true_length hv
    omega
  rw [upload_writeFail s file ts rand now inf hv hsz hnz]
  exact ⟨rfl, rfl, rfl⟩

/-- Witness for C3 at a concrete upload. -/
theorem C3_witness :
    (upload_document initialState file0 1 1000 0 true false).1
      = .serverFault "Internal server error during upload"
    ∧ (upload_document initialState file0 1 1000 0 true false).2.table
        = initialState.table
    ∧ get_documents (upload_document initialState file0 1 1000 0 true false).2
        = get_documents initialState :=
  C3_write_failure_no_row initialState file0 1 1000 0 false (by decide) (by decide)

/-- C9: for an id whose index row exists but whose blob is absent on
disk, `download_document` returns the 404 NotFound outcome — the same
status as an id that never existed — and not a server fault. -/
theorem C9_missing_blob_notFound (s : ServerState) (id : Nat) (row : DocRow)
    (h : tableLookup s.table id = some row)
    (hmiss : diskLookup s.disk row.filepath = none) :
    download_document s id = .notFound "File not found on disk"
    ∧ (download_document s id).statusCode = 404
    ∧ ∀ j, tableLookup s.table j = none →
        download_document s j = .notFound "Document not found"
        ∧ (download_document s j).statusCode = 404 := by
  have hd := download_missing_blob s id row h hmiss
  refine ⟨hd, by rw [hd]; rfl, ?_⟩
  intro j hj
  have hj2 := download_missing_row s j hj
  exact ⟨hj2, by rw [hj2]; rfl⟩

/-- Witness for C9: a state holding one row whose blob is gone. -/
theorem C9_witness :
    download_document ⟨[], [⟨1, "f", "a.pdf", "server/uploads/f", 4, 0⟩], 2⟩ 1
      = .notFound "File not found on disk"
    ∧ (download_document ⟨[], [⟨1, "f", "a.pdf", "server/uploads/f", 4, 0⟩], 2⟩ 1).statusCode
        = 404
    ∧ download_document ⟨[], [⟨1, "f", "a.pdf", "server/uploads/f", 4, 0⟩], 2⟩ 7
        = .notFound "Document not found"
    ∧ (download_document ⟨[], [⟨1, "f", "a.pdf", "server/uploads/f", 4, 0⟩], 2⟩ 7).statusCode
        = 404 := by
  have h := C9_missing_blob_notFound ⟨[], [⟨1, "f", "a.pdf", "server/uploads/f", 4, 0⟩], 2⟩
    1 ⟨1, "f", "a.pdf", "server/uploads/f", 4, 0⟩ (by decide) (by decide)
  exact ⟨h.1, h.2.1, (h.2.2 7 (by decide)).1, (h.2.2 7 (by decide)).2⟩

/-- After the delete handler's blob step, the blob at the deleted row's
filepath is gone, whether or not it existed. -/
theorem diskLookup_deleteStep (d : List (String × List Nat)) (k : String) :
    diskLookup (if (diskLookup d k).isSome then diskErase d k else d) k = none := by
  cases hb : diskLookup d k with
  | none => simp [hb]
  | some v => simp [hb, diskLookup_erase]

/-- C8: deleting a stored id succeeds removing both blob and row; a second
delete of the same id returns NotFound, never a server fault; a delete
whose row-deletion step matches zero rows (a racing delete won) is also
NotFound; and the blob is removed first — it is gone even when the SQL
DELETE step itself fails. -/
theorem C8_delete_idempotent (s : ServerState) (id : Nat) (row : DocRow)
    (h : tableLookup s.table id = some row) :
    (delete_document s id false false).1 = .ok "Document deleted successfully"
    ∧ diskLookup (delete_document s id false false).2.disk row.filepath = none
    ∧ tableLookup (delete_document s id false false).2.table id = none
    ∧ (delete_document (delete_document s id false false).2 id false false).1
        = .notFound "Document not found"
    ∧ (delete_document s id true false).1 = .notFound "Document not found"
    ∧ diskLookup (delete_document s id false true).2.disk row.filepath = none := by
  have h1 := delete_found s id row h
  have hrow2 : tableLookup (delete_document s id false false).2.table id = none := by
    rw [h1]
    exact tableLookup_delete_self s.table id
  refine ⟨by rw [h1], ?_, hrow2, ?_, ?_, ?_⟩
  · rw [h1]
    exact diskLookup_deleteStep s.disk row.filepath
  · rw [delete_notFound (delete_document s id false false).2 id false false hrow2]
  · rw [delete_race s id row h]
  · rw [delete_dbFail s id row false h]
    exact diskLookup_deleteStep s.disk row.filepath

/-- Witness for C8 at a concrete one-row state. -/
theorem C8_witness :
    (delete_document ⟨[("server/uploads/f", [1, 2, 3])],
        [⟨1, "f", "a.pdf", "server/uploads/f", 3, 0⟩], 2⟩ 1 false false).1
      = .ok "Document deleted successfully"
    ∧ diskLookup (delete_document ⟨[("server/uploads/f", [1, 2, 3])],
        [⟨1, "f", "a.pdf", "server/uploads/f", 3, 0⟩], 2⟩ 1 false false).2.disk
        "server/uploads/f" = none
    ∧ tableLookup (delete_document ⟨[("server/uploads/f", [1, 2, 3])],
        [⟨1, "f", "a.pdf", "server/uploads/f", 3, 0⟩], 2⟩ 1 false false).2.table 1 = none
    ∧ (delete_document (delete_document ⟨[("server/uploads/f", [1, 2, 3])],
        [⟨1, "f", "a.pdf", "server/uploads/f", 3, 0⟩], 2⟩ 1 false false).2 1 false false).1
        = .notFound "Document not found"
    ∧ (delete_document ⟨[("server/uploads/f", [1, 2, 3])],
        [⟨1, "f", "a.pdf", "server/uploads/f", 3, 0⟩], 2⟩ 1 true false).1
        = .notFound "Document not found"
    ∧ diskLookup (delete_document ⟨[("server/uploads/f", [1, 2, 3])],
        [⟨1, "f", "a.pdf", "server/uploads/f", 3, 0⟩], 2⟩ 1 false true).2.disk
        "server/uploads/f" = none :=
  C8_delete_idempotent ⟨[("server/uploads/f", [1, 2, 3])],
    [⟨1, "f", "a.pdf", "server/uploads/f", 3, 0⟩], 2⟩ 1
    ⟨1, "f", "a.pdf", "server/uploads/f", 3, 0⟩ (by decide)

/-- C5: the validator accepts exactly when the filename case-insensitively
ends in `.pdf` and the content starts with the 4-byte `%PDF` signature;
on accept it leaves the stream position at the start of the content; and
a rejection surfaces as the file-type ClientError with no state change. -/
theorem C5_validator_iff (file : FileState) (s : ServerState) (ts rand now : Nat)
    (wf inf : Bool) :
    ((validate_pdf_file file).1 = true ↔
      lowerEndsWithPdf file.name = true ∧ pdfMagic.isPrefixOf file.data = true)
    ∧ ((validate_pdf_file file).1 = true → (validate_pdf_file file).2.pos = 0)
    ∧ ((validate_pdf_file file).1 = false →
        upload_document s file ts rand now wf inf
          = (.clientError "Only PDF files are allowed", s)) := by
  refine ⟨validate_true_iff file, ?_,
    fun hf => upload_invalid s file ts rand now wf inf hf⟩
  intro ht
  rw [validate_pdf_file] at ht ⊢
  by_cases hn : lowerEndsWithPdf file.name = false
  · rw [if_pos hn] at ht
    simp at ht
  · rw [if_neg hn]

/-- Witness for C5: an accepted file has its position restored; a file
with a bad extension is rejected with the file-type ClientError. -/
theorem C5_witness :
    (validate_pdf_file file0).2.pos = 0
    ∧ upload_document initialState ⟨"a.txt", [37, 80, 68, 70], 3⟩ 1 1000 0 false false
        = (.clientError "Only PDF files are allowed", initialState) :=
  ⟨(C5_validator_iff file0 initialState 1 1000 0 false false).2.1 (by decide),
   (C5_validator_iff ⟨"a.txt", [37, 80, 68, 70], 3⟩ initialState 1 1000 0
      false false).2.2 (by decide)⟩

/-- Looking up the freshly inserted row after an append always finds a
row (the appended one at the latest). -/
theorem tableLookup_append_isSome (t : List DocRow) (row : DocRow) :
    ∃ r, tableLookup (t ++ [row]) row.id = some r := by
  rw [tableLookup, List.find?_append]
  cases hf : List.find? (fun r => r.id == row.id) t with
  | some r => exact ⟨r, rfl⟩
  | none =>
    refine ⟨row, ?_⟩
    rw [Option.none_or]
    simp [List.find?]

/-- When no earlier row carries the new id, the re-read after insert
returns exactly the inserted row. -/
theorem tableLookup_append (t : List DocRow) (row : DocRow)
    (hid : ∀ r ∈ t, r.id ≠ row.id) :
    tableLookup (t ++ [row]) row.id = some row := by
  rw [tableLookup, List.find?_append]
  have hnone := tableLookup_eq_none hid
  rw [tableLookup] at hnone
  rw [hnone, Option.none_or]
  simp [List.find?]

/-- The fault-free upload path past validation and the size gate reports
success: the re-read always finds a row with the fresh id. -/
theorem upload_noFault_isSuccess (s : ServerState) (file : FileState)
    (ts rand now : Nat)
    (hv : (validate_pdf_file file).1 = true)
    (hsz : file.data.length ≤ MAX_FILE_SIZE) (hnz : file.data.length ≠ 0) :
    (upload_document s file ts rand now false false).1.isSuccess = true := by
  rw [upload_document]
  simp only [hv, Bool.true_eq_false, if_false, validate_data_eq, validate_name_eq]
  rw [if_neg (Nat.not_lt.2 hsz), if_neg hnz]
  simp only [Bool.false_eq_true, if_false, validate_data_eq, validate_name_eq]
  obtain ⟨r, hr⟩ := tableLookup_append_isSome s.table (uploadRow s file ts rand now)
  simp only [uploadRow, fpOf] at hr
  rw [hr]
  rfl

/-- Distinct detail strings give distinct client errors. -/
theorem fst_clientError_ne {p : UploadResult × ServerState} {d1 d2 : String}
    (hp : p.1 = .clientError d1) (hne : d1 ≠ d2) : p.1 ≠ .clientError d2 := by
  rw [hp]
  intro hc
  injection hc with h
  exact hne h

/-- A server fault is never a client error. -/
theorem fst_serverFault_ne {p : UploadResult × ServerState} {d1 d2 : String}
    (hp : p.1 = .serverFault d1) : p.1 ≠ .clientError d2 := by
  rw [hp]
  exact fun hc => nomatch hc

/-- No branch of the fault-free tail of the upload handler returns a
client error. -/
theorem matchOption_fst_ne_clientError (o : Option DocRow) (s1 : ServerState)
    (d : String) :
    (match o with
     | none => (UploadResult.serverFault "Failed to retrieve uploaded document", s1)
     | some r => (UploadResult.success r.id r.original_name r.filesize r.created_at, s1)).1
      ≠ UploadResult.clientError d := by
  cases o <;> simp

/-- C10: the validator only accepts content of at least 4 bytes, so every
zero-byte upload is already rejected by the file-type check, and the
dedicated `Empty file not allowed` branch of `upload_document` is
unreachable for every input. -/
theorem C10_empty_branch_unreachable :
    (∀ file : FileState, (validate_pdf_file file).1 = true → 4 ≤ file.data.length)
    ∧ (∀ (s : ServerState) (file : FileState) (ts rand now : Nat) (wf inf : Bool),
        file.data.length = 0 →
        upload_document s file ts rand now wf inf
          = (.clientError "Only PDF files are allowed", s))
    ∧ (∀ (s : ServerState) (file : FileState) (ts rand now : Nat) (wf inf : Bool),
        (upload_document s file ts rand now wf inf).1
          ≠ .clientError "Empty file not allowed") := by
  refine ⟨fun file hv => validate_true_length hv, ?_, ?_⟩
  · intro s file ts rand now wf inf hlen
    have hf : (validate_pdf_file file).1 = false := by
      cases hvb : (validate_pdf_file file).1 with
      | false => rfl
      | true =>
        have := validate_true_length hvb
        omega
    exact upload_invalid s file ts rand now wf inf hf
  · intro s file ts rand now wf inf
    cases hvb : (validate_pdf_file file).1 with
    | false =>
      rw [upload_invalid s file ts rand now wf inf hvb]
      exact fst_clientError_ne rfl (by decide)
    | true =>
      have h4 := validate_true_length hvb
      have hnz : file.data.length ≠ 0 := by omega
      by_cases hsz : MAX_FILE_SIZE < file.data.length
      · rw [upload_oversize s file ts rand now wf inf hvb hsz]
        exact fst_clientError_ne rfl (by decide)
      · have hsz' := Nat.not_lt.1 hsz
        cases wf with
        | true =>
          rw [upload_writeFail s file ts rand now inf hvb hsz' hnz]
          exact fst_serverFault_ne rfl
        | false =>
          cases inf with
          | true =>
            rw [upload_insertFail s file ts rand now hvb hsz' hnz]
            exact fst_serverFault_ne rfl
          | false =>
            rw [upload_document]
            simp only [hvb, Bool.true_eq_false, if_false, validate_data_eq,
              validate_name_eq]
            rw [if_neg hsz, if_neg hnz]
            simp only [Bool.false_eq_true, if_false, validate_data_eq,
              validate_name_eq]
            exact matchOption_fst_ne_clientError _ _ _

/-- Witness for C10 at concrete files: the 4-byte bound at `file0`, and
the rejection of a zero-byte file named `empty.pdf`. -/
theorem C10_witness :
    4 ≤ file0.data.length
    ∧ upload_document initialState ⟨"empty.pdf", [], 0⟩ 1 1000 0 false false
        = (.clientError "Only PDF files are allowed", initialState)
    ∧ (upload_document initialState file0 1 1000 0 false false).1
        ≠ .clientError "Empty file not allowed" :=
  ⟨C10_empty_branch_unreachable.1 file0 (by decide),
   C10_empty_branch_unreachable.2.1 initialState ⟨"empty.pdf", [], 0⟩ 1 1000 0
     false false (by decide),
   C10_empty_branch_unreachable.2.2 initialState file0 1 1000 0 false false⟩

/-- C4: the size gate sits between validation and the blob write: a
zero-byte file is rejected as a ClientError with the state (hence the
disk) unchanged, any file strictly over 10 MiB is rejected as a
ClientError with the state unchanged, one byte over the boundary draws
the size-limit ClientError, and a validated file of exactly 10 MiB
passes the size check and the fault-free upload succeeds. -/
theorem C4_size_gate (s : ServerState) (file : FileState) (ts rand now : Nat)
    (wf inf : Bool) :
    (file.data.length = 0 →
      (upload_document s file ts rand now wf inf).1.isClientError = true
      ∧ (upload_document s file ts rand now wf inf).2 = s)
    ∧ (MAX_FILE_SIZE < file.data.length →
      (upload_document s file ts rand now wf inf).1.isClientError = true
      ∧ (upload_document s file ts rand now wf inf).2 = s)
    ∧ ((validate_pdf_file file).1 = true →
        file.data.length = MAX_FILE_SIZE + 1 →
        upload_document s file ts rand now wf inf
          = (.clientError "File size exceeds 10MB limit", s))
    ∧ ((validate_pdf_file file).1 = true →
        file.data.length = MAX_FILE_SIZE →
        (upload_document s file ts rand now false false).1.isSuccess = true) := by
  refine ⟨?_, ?_, ?_, ?_⟩
  · intro hlen
    have hf : (validate_pdf_file file).1 = false := by
      cases hvb : (validate_pdf_file file).1 with
      | false => rfl
      | true =>
        have := validate_true_length hvb
        omega
    rw [upload_invalid s file ts rand now wf inf hf]
    exact ⟨rfl, rfl⟩
  · intro hsz
    cases hvb : (validate_pdf_file file).1 with
    | false =>
      rw [upload_invalid s file ts rand now wf inf hvb]
      exact ⟨rfl, rfl⟩
    | true =>
      rw [upload_oversize s file ts rand now wf inf hvb hsz]
      exact ⟨rfl, rfl⟩
  · intro hv hlen
    exact upload_oversize s file ts rand now wf inf hv (by omega)
  · intro hv hlen
    refine upload_noFault_isSuccess s file ts rand now hv (by omega) ?_
    rw [hlen]
    decide

/-- A 10 MiB file: the `%PDF` signature padded with zero bytes. -/
def fileMax : FileState := ⟨"big.pdf", pdfMagic ++ List.replicate 10485756 0, 0⟩

/-- One byte over 10 MiB. -/
def fileOver : FileState := ⟨"big.pdf", pdfMagic ++ List.replicate 10485757 0, 0⟩

theorem fileMax_length : fileMax.data.length = MAX_FILE_SIZE := by
  show (pdfMagic ++ List.replicate 10485756 0).length = MAX_FILE_SIZE
  rw [List.length_append, List.length_replicate]
  decide

theorem fileOver_length : fileOver.data.length = MAX_FILE_SIZE + 1 := by
  show (pdfMagic ++ List.replicate 10485757 0).length = MAX_FILE_SIZE + 1
  rw [List.length_append, List.length_replicate]
  decide

theorem fileMax_valid : (validate_pdf_file fileMax).1 = true :=
  validate_of_append "big.pdf" (List.replicate 10485756 0) 0 (by decide)

theorem fileOver_valid : (validate_pdf_file fileOver).1 = true :=
  validate_of_append "big.pdf" (List.replicate 10485757 0) 0 (by decide)

/-- Witness for C4 at concrete files: a zero-byte upload, a file one byte
over the limit (twice: generic bound and exact boundary message), and a
file of exactly 10 MiB. -/
theorem C4_witness :
    ((upload_document initialState ⟨"empty.pdf", [], 0⟩ 1 1000 0 false false).1.isClientError
        = true
      ∧ (upload_document initialState ⟨"empty.pdf", [], 0⟩ 1 1000 0 false false).2
        = initialState)
    ∧ ((upload_document initialState fileOver 1 1000 0 false false).1.isClientError = true
      ∧ (upload_document initialState fileOver 1 1000 0 false false).2 = initialState)
    ∧ upload_document initialState fileOver 1 1000 0 false false
        = (.clientError "File size exceeds 10MB limit", initialState)
    ∧ (upload_document initialState fileMax 1 1000 0 false false).1.isSuccess = true :=
  ⟨(C4_size_gate initialState ⟨"empty.pdf", [], 0⟩ 1 1000 0 false false).1 (by decide),
   (C4_size_gate initialState fileOver 1 1000 0 false false).2.1
     (by rw [fileOver_length]; decide),
   (C4_size_gate initialState fileOver 1 1000 0 false false).2.2.1
     fileOver_valid fileOver_length,
   (C4_size_gate initialState fileMax 1 1000 0 false false).2.2.2
     fileMax_valid fileMax_length⟩

/-- C6: a fault-free accepted upload stores exactly the uploaded bytes,
and downloading the returned id yields those bytes with media type
`application/pdf` and the client-supplied original filename. -/
theorem C6_roundtrip (s : ServerState) (file : FileState) (ts rand now : Nat)
    (hv : (validate_pdf_file file).1 = true)
    (hsz : file.data.length ≤ MAX_FILE_SIZE)
    (hid : ∀ row ∈ s.table, row.id ≠ s.nextId) :
    (upload_document s file ts rand now false false).1
      = .success s.nextId file.name file.data.length now
    ∧ download_document (upload_document s file ts rand now false false).2 s.nextId
      = .ok file.data "application/pdf" file.name := by
  have hnz : file.data.length ≠ 0 := by
    have := validate_true_length hv
    omega
  refine ⟨upload_success_result s file ts rand now hv hsz hnz hid, ?_⟩
  rw [upload_success_state s file ts rand now hv hsz hnz]
  have htl : tableLookup (s.table ++ [uploadRow s file ts rand now]) s.nextId
      = some (uploadRow s file ts rand now) :=
    tableLookup_append s.table (uploadRow s file ts rand now) hid
  have hc : diskLookup (diskInsert s.disk (fpOf file ts rand) file.data)
      (uploadRow s file ts rand now).filepath = some file.data := by
    rw [diskLookup_insert]
    simp [uploadRow]
  exact download_ok _ s.nextId (uploadRow s file ts rand now) file.data htl hc

/-- Witness for C6 at a concrete upload on the fresh server. -/
theorem C6_witness :
    (upload_document initialState file0 1 1000 0 false false).1
      = .success initialState.nextId file0.name file0.data.length 0
    ∧ download_document (upload_document initialState file0 1 1000 0 false false).2
        initialState.nextId
      = .ok file0.data "application/pdf" file0.name :=
  C6_roundtrip initialState file0 1 1000 0 (by decide) (by decide)
    (by intro row hrow; cases hrow)

/-- A state whose disk already holds content under the storage key the
next upload of `file0` with timestamp 1 and suffix 1000 will use. -/
def s7 : ServerState := ⟨[("server/uploads/1-1000-a.pdf", [1, 2, 3])], [], 1⟩

/-- C7 counterexample: with a blob already stored under the colliding
key, the upload succeeds with no failure reported and the old content
under that key is replaced — the write does not fail loudly. -/
theorem C7_counterexample :
    diskLookup s7.disk "server/uploads/1-1000-a.pdf" = some [1, 2, 3]
    ∧ (upload_document s7 file0 1 1000 0 false false).1.isSuccess = true
    ∧ diskLookup (upload_document s7 file0 1 1000 0 false false).2.disk
        "server/uploads/1-1000-a.pdf" = some [37, 80, 68, 70] := by
  decide

/-- C7 (amended): the blob write opens the storage path in write mode, so
whatever the current state holds under the generated key, a fault-free
validated upload succeeds and afterwards the key holds the new upload's
bytes — an existing blob under the key is silently replaced. -/
theorem C7_silent_overwrite (s : ServerState) (file : FileState) (ts rand now : Nat)
    (hv : (validate_pdf_file file).1 = true)
    (hsz : file.data.length ≤ MAX_FILE_SIZE) :
    (upload_document s file ts rand now false false).1.isSuccess = true
    ∧ diskLookup (upload_document s file ts rand now false false).2.disk
        (fpOf file ts rand) = some file.data := by
  have hnz : file.data.length ≠ 0 := by
    have := validate_true_length hv
    omega
  refine ⟨upload_noFault_isSuccess s file ts rand now hv hsz hnz, ?_⟩
  rw [upload_success_state s file ts rand now hv hsz hnz]
  show diskLookup (diskInsert s.disk (fpOf file ts rand) file.data) (fpOf file ts rand)
      = some file.data
  rw [diskLookup_insert, if_pos rfl]

/-- Witness for C7 at the colliding state `s7`. -/
theorem C7_witness :
    (upload_document s7 file0 1 1000 0 false false).1.isSuccess = true
    ∧ diskLookup (upload_document s7 file0 1 1000 0 false false).2.disk
        (fpOf file0 1 1000) = some file0.data :=
  C7_silent_overwrite s7 file0 1 1000 0 (by decide) (by decide)

/-- State after one successful upload of `file0` on the fresh server. -/
def s1after : ServerState := (upload_document initialState file0 1 1000 0 false false).2

/-- State after a delete of that document whose SQL DELETE step failed:
the handler has already unlinked the blob, lands in the exception
handler, and leaves the index row behind. -/
def sBad : ServerState := (delete_document s1after 1 false true).2

/-- C1 counterexample: `sBad` is reachable by completed operations — no
upload is in progress — yet its index row references missing blob
content, because the deletion handler removes the blob before the index
row and performs no compensation when the row deletion fails. -/
theorem C1_counterexample : Reachable sBad ∧ ¬ indexBacked sBad := by
  constructor
  · exact Reachable.step
      (Reachable.step Reachable.init
        (Step.upload initialState file0 1 1000 0 false false))
      (Step.delete s1after 1 false true)
  · intro h
    exact absurd
      (h ⟨1, "1-1000-a.pdf", "a.pdf", "server/uploads/1-1000-a.pdf", 4, 0⟩ (by decide))
      (by decide)

/-- An upload whose generated storage key is fresh preserves the
strengthened invariant. -/
theorem upload_preserves (s : ServerState) (file : FileState) (ts rand now : Nat)
    (wf inf : Bool) (hg : goodState s)
    (hfresh : diskLookup s.disk (fpOf file ts rand) = none) :
    goodState (upload_document s file ts rand now wf inf).2 := by
  by_cases hv : (validate_pdf_file file).1 = true
  case neg =>
    rw [upload_invalid s file ts rand now wf inf (by simpa using hv)]
    exact hg
  case pos =>
  by_cases hsz : MAX_FILE_SIZE < file.data.length
  case pos =>
    rw [upload_oversize s file ts rand now wf inf hv hsz]
    exact hg
  case neg =>
  have hsz' : file.data.length ≤ MAX_FILE_SIZE := Nat.not_lt.1 hsz
  have hnz : file.data.length ≠ 0 := by
    have := validate_true_length hv
    omega
  have hne : ∀ row ∈ s.table, row.filepath ≠ fpOf file ts rand := by
    intro row hrow heq
    have hb := hg.1 row hrow
    rw [heq, hfresh] at hb
    cases hb
  cases wf with
  | true =>
    rw [upload_writeFail s file ts rand now inf hv hsz' hnz]
    refine ⟨?_, hg.2⟩
    intro row hrow
    show (diskLookup (diskErase s.disk (fpOf file ts rand)) row.filepath).isSome = true
    rw [diskLookup_erase, if_neg (hne row hrow)]
    exact hg.1 row hrow
  | false =>
    cases inf with
    | true =>
      rw [upload_insertFail s file ts rand now hv hsz' hnz]
      refine ⟨?_, hg.2⟩
      intro row hrow
      show (diskLookup
        (diskErase (diskInsert s.disk (fpOf file ts rand) file.data) (fpOf file ts rand))
        row.filepath).isSome = true
      rw [diskLookup_erase, if_neg (hne row hrow), diskLookup_insert,
        if_neg (hne row hrow)]
      exact hg.1 row hrow
    | false =>
      rw [upload_success_state s file ts rand now hv hsz' hnz]
      constructor
      · intro row hrow
        rcases List.mem_append.1 hrow with hold | hnew
        · show (diskLookup (diskInsert s.disk (fpOf file ts rand) file.data)
            row.filepath).isSome = true
          rw [diskLookup_insert, if_neg (hne row hold)]
          exact hg.1 row hold
        · have heq : row = uploadRow s file ts rand now := by simpa using hnew
          subst heq
          show (diskLookup (diskInsert s.disk (fpOf file ts rand) file.data)
            (uploadRow s file ts rand now).filepath).isSome = true
          rw [diskLookup_insert]
          simp [uploadRow]
      · refine List.pairwise_append.2 ⟨hg.2, List.pairwise_singleton _ _, ?_⟩
        intro a ha b hb
        rw [List.mem_singleton] at hb
        subst hb
        exact hne a ha

/-- A delete whose SQL DELETE step does not fail preserves the
strengthened invariant. -/
theorem delete_preserves (s : ServerState) (id : Nat) (race : Bool)
    (hg : goodState s) :
    goodState (delete_document s id race false).2 := by
  cases htl : tableLookup s.table id with
  | none =>
    rw [delete_notFound s id race false htl]
    exact hg
  | some row =>
    have hstate : (delete_document s id race false).2 =
        ⟨if (diskLookup s.disk row.filepath).isSome then diskErase s.disk row.filepath
          else s.disk, tableDelete s.table id, s.nextId⟩ := by
      cases race with
      | false => rw [delete_found s id row htl]
      | true => rw [delete_race s id row htl]
    rw [hstate]
    constructor
    · intro r hr
      have hr2 := mem_tableDelete hr
      have hrne : r.filepath ≠ row.filepath := by
        have hneq : r ≠ row := by
          intro he
          exact hr2.2 (by rw [he]; exact tableLookup_id htl)
        exact List.Pairwise.forall (fun a b hab => hab.symm) hg.2
          hr2.1 (tableLookup_mem htl) hneq
      show (diskLookup
        (if (diskLookup s.disk row.filepath).isSome then diskErase s.disk row.filepath
          else s.disk) r.filepath).isSome = true
      by_cases hb : (diskLookup s.disk row.filepath).isSome = true
      · rw [if_pos hb, diskLookup_erase, if_neg hrne]
        exact hg.1 r hr2.1
      · rw [if_neg hb]
        exact hg.1 r hr2.1
    · exact hg.2.sublist (List.filter_sublist s.table)

/-- Every state reachable under fresh keys and fault-free row deletion
satisfies the strengthened invariant. -/
theorem reachableNF_good (s : ServerState) (h : ReachableNF s) : goodState s := by
  induction h with
  | init =>
    constructor
    · intro row hrow
      cases hrow
    · exact List.Pairwise.nil
  | step hr hs ih =>
    cases hs with
    | upload file ts rand now wf inf hfresh =>
      exact upload_preserves _ file ts rand now wf inf ih hfresh
    | delete id race =>
      exact delete_preserves _ id race ih

/-- C1 (amended): outside the two-step commit window of an in-progress
upload, every index row has a blob on disk at its stored filepath,
provided generated storage keys are fresh and no delete fails between
its blob-removal and row-removal steps; the deletion handler removes the
blob before the index row, so a failure between the two leaves an index
row referencing missing content (see the counterexample). -/
theorem C1_index_rows_backed (s : ServerState) (h : ReachableNF s) :
    indexBacked s :=
  (reachableNF_good s h).1

/-- Witness for C1 at the state reached by one concrete upload. -/
theorem C1_witness :
    indexBacked (upload_document initialState file0 1 1000 0 false false).2 :=
  C1_index_rows_backed (upload_document initialState file0 1 1000 0 false false).2
    (ReachableNF.step ReachableNF.init
      (StepNF.upload initialState file0 1 1000 0 false false (by decide)))
